import Mathlib

/-!
Verification of the graphene.foundation.js core (src/Graphene.foundation.js)
against its design specification.

Modelling conventions:
* JS numbers are modelled by real numbers (the spec reasons in exact
  arithmetic: Euclidean distance, clamping, weighted means).
* The JS remainder operator is jsMod (sign of the dividend, truncating
  quotient); Math.hypot is the square root of the sum of squares.
* The two mutable arrays a node references (incubationHistory, history) live
  in an explicit Store indexed by the reference a node carries, because
  evolveNode starts with a spread copy (line 110: n = spread of node) that
  copies the references, not the arrays; Array.push and Array.shift are
  in-place writes through those references.  The history array only ever
  holds opaque hashes and is only read for its length (line 113), so the
  Store keeps just its length.
* Region objects form a finite parent chain; a Region value is its own data
  plus the list of its ancestors (nearest first), which is exactly what the
  parent pointers of the source reach.  The meanTheta cache write done by
  allowedHueBand (line 65) is modelled by returning the updated region.
* Math.random() draws are explicit context fields (randBreak, randX, randY,
  checkpointDraw), so theorems quantify over every draw.
* In evolveNode, n is the plain-object spread of a class instance: it has
  the fields of node, but none of the prototype methods of Node.  Therefore
  the call n.snapshot() at line 233 is a call of undefined and throws a
  TypeError.  evolveNode is accordingly an Except: its value part is always
  computed (evolveValue), and the checkpoint branch fails instead of
  emitting a token.
-/

namespace Graphene

noncomputable section

open scoped Classical

/-! ## Vector helpers (source lines 17 to 21) -/

structure Vec where
  x : ℝ
  y : ℝ
  z : ℝ

/-- vadd (line 17). -/
def vadd (a b : Vec) : Vec := ⟨a.x + b.x, a.y + b.y, a.z + b.z⟩

/-- vsub (line 18). -/
def vsub (a b : Vec) : Vec := ⟨a.x - b.x, a.y - b.y, a.z - b.z⟩

/-- vscale (line 19). -/
def vscale (v : Vec) (s : ℝ) : Vec := ⟨v.x * s, v.y * s, v.z * s⟩

/-- vlen (line 20): Math.hypot of the three components. -/
def vlen (v : Vec) : ℝ := Real.sqrt (v.x ^ 2 + v.y ^ 2 + v.z ^ 2)

/-- vnorm (line 21): the length is replaced by 1 when it is 0 (JS falsy
guard, l = vlen(v) or-else 1), so the zero vector normalises to itself. -/
def vnorm (v : Vec) : Vec :=
  let l := if vlen v = 0 then 1 else vlen v
  vscale v (1 / l)

/-! ## Utilities (source lines 26 to 30) -/

/-- clamp (line 26): Math.max(a, Math.min(b, v)). -/
def clamp (v a b : ℝ) : ℝ := max a (min b v)

/-- avg (line 28): arr.length is truthy exactly when the list is nonempty. -/
def avg (l : List ℝ) : ℝ := if l.isEmpty then 0 else l.sum / (l.length : ℝ)

/-- vecDiff (line 29): a.map((v,i) => v - (b[i] ?? 0)); the result follows
the first list, a missing entry of b counts as 0. -/
def vecDiff : List ℝ → List ℝ → List ℝ
  | [], _ => []
  | v :: a, [] => (v - 0) :: vecDiff a []
  | v :: a, w :: b => (v - w) :: vecDiff a b

/-- Math.hypot over a list of components. -/
def jsHypot (l : List ℝ) : ℝ := Real.sqrt ((l.map fun v => v ^ 2).sum)

/-- The truncating integer part used by the JS remainder operator:
toward zero, so floor for a nonnegative argument and ceil otherwise. -/
def jsTrunc (x : ℝ) : ℤ := if 0 ≤ x then Int.floor x else Int.ceil x

/-- The JS remainder a % b: a - b * trunc(a / b), sign of the dividend. -/
def jsMod (a b : ℝ) : ℝ := a - b * (jsTrunc (a / b) : ℝ)

/-! ## Region (source lines 36 to 71)

A Region value carries its own record and the records of its ancestors,
nearest parent first; an empty ancestor list is a region whose parent is
null. -/

structure RegionData where
  kappa : ℝ
  generation : ℤ
  fieldCenter : Vec
  fieldStrength : ℝ
  meanTheta : ℝ
  observers : List Nat

structure Region where
  self : RegionData
  ancestors : List RegionData

/-- The parent pointer: the nearest ancestor together with the rest of the
chain. -/
def Region.parentRegion (r : Region) : Option Region :=
  match r.ancestors with
  | [] => none
  | d :: rest => some ⟨d, rest⟩

/-- Math.pow(0.88, Math.max(0, e)) for the integer exponent of
effectiveKappa (line 50). -/
def powDecay (e : ℤ) : ℝ := (0.88 : ℝ) ^ (max 0 e).toNat

/-- The while loop of effectiveKappa (lines 49 to 50), walking cur from the
region to the root and accumulating (tot, wsum).  The weight of cur is
0.88 to the power max(0, g - cur.generation) when cur has a parent and 1
when it does not (the root). -/
def kappaWalk : RegionData → List RegionData → ℤ → ℝ × ℝ
  | d, [], _ => (d.kappa, 1)
  | d, p :: rest, g =>
      let w := powDecay (g - d.generation)
      let t := kappaWalk p rest g
      (t.1 + w * d.kappa, t.2 + w)

/-- effectiveKappa (lines 48 to 52): wsum truthy picks tot/wsum, else the
own kappa. -/
def Region.effectiveKappa (r : Region) (g : ℤ) : ℝ :=
  let t := kappaWalk r.self r.ancestors g
  if t.2 = 0 then r.self.kappa else t.1 / t.2

/-- The base field of one region record (lines 55 to 59). -/
def baseField (d : RegionData) (pos : Vec) : Vec :=
  let toC := vsub d.fieldCenter pos
  let dist := vlen toC + 0.000001
  vscale (vnorm toC) (d.fieldStrength / (1 + 0.01 * dist * dist))

/-- computeField (lines 53 to 63): own base field plus, recursively, the
parent field at the same position. -/
def fieldOfChain : RegionData → List RegionData → Vec → Vec
  | d, [], pos => baseField d pos
  | d, p :: rest, pos => vadd (baseField d pos) (fieldOfChain p rest pos)

/-- The function computeField() returns, applied to a position. -/
def Region.computeFieldAt (r : Region) (pos : Vec) : Vec :=
  fieldOfChain r.self r.ancestors pos

structure Band where
  L : ℝ
  U : ℝ
  center : ℝ
  halfWidth : ℝ

/-- allowedHueBand (lines 64 to 70).  The returned region is the receiver
with its meanTheta cache overwritten by the freshly computed mean
(this.meanTheta = meanTheta, line 65). -/
def Region.allowedHueBand (r : Region) (thetaVec : List ℝ) (coh : ℝ) :
    Band × Region :=
  let meanTheta := avg thetaVec
  let r2 : Region := { r with self := { r.self with meanTheta := meanTheta } }
  let spread := clamp (0.2 + (1 - clamp (coh / 100) 0 1) * 0.8) 0.05 1.5
  let twoPi := 2 * Real.pi
  let center := jsMod (jsMod meanTheta twoPi + twoPi) twoPi / twoPi
  let hw := spread * (1 / (1 + r.effectiveKappa r.self.generation * 8))
  (⟨clamp (center - hw) 0 1, clamp (center + hw) 0 1, center, hw⟩, r2)

/-! ## Node (source lines 76 to 103)

A Node value holds the scalar and vector fields the constructor assigns.
The two arrays it owns are held by reference: incubRef points at the
incubationHistory array in the store, historyRef at the history array of
hashes (kept as a length only, since evolveNode reads nothing else of it).
children is kept as its length (evolveNode reads only children.length,
line 214); the owning region is passed to evolveNode through the context
(ctx.regionObj), which is what the source reads there. -/

structure Awareness where
  velocity : ℝ
  alignmentScore : ℝ
  hueConvergence : ℝ
  gazeIntensity : ℝ
  isHappyChallenged : Bool

structure Node where
  hue : ℝ
  rotation : ℝ
  coherence : ℝ
  entropy : ℝ
  sandbox : ℝ
  stagnation : ℝ
  learningRate : ℝ
  growthPotential : ℝ
  angles : List ℝ
  pos : Vec
  vel : Vec
  acc : Vec
  mass : ℝ
  range : ℝ
  fov : ℝ
  incubating : Bool
  incubationScore : ℝ
  childrenLen : Nat
  observer : Bool
  incubRef : Nat
  historyRef : Nat
  awareness : Awareness

/-- The array store: contents of every incubationHistory array, and the
length of every history array (its entries are opaque hashes). -/
structure Store where
  incub : Nat → List ℝ
  historyLen : Nat → Nat

/-- The ctx argument of evolveNode (line 109), with the three Math.random()
draws of the step made explicit: randBreak for the breakthrough jitter
(line 173), randX and randY for the motion jitter (lines 181 to 182), and
checkpointDraw for Math.random() < 0.02 (line 233). -/
structure Ctx where
  neighbors : List Node
  spatialNeighbors : Option (List Node)
  regionObj : Option Region
  contributions : List ℝ
  allNodes : Nat → Option Node
  randBreak : ℝ
  randX : ℝ
  randY : ℝ
  checkpointDraw : Bool

/-! ## The evolution step (source lines 108 to 235), split by source line.

Each definition below is one assignment of the source, named after the
field it produces; evolveValue assembles them into the n the function
returns, and evolveNode adds the final checkpoint branch. -/

/-- The state vector [hue, rotation, ...angles, pos.x, pos.y] of line 114. -/
def stateVecOf (n : Node) : List ℝ :=
  n.hue :: n.rotation :: (n.angles ++ [n.pos.x, n.pos.y])

/-- velocity (lines 113 to 116).  prev is node when history.length > 1 and
otherwise n; at this point n is the still unmodified spread copy of node,
so both branches carry the same field values and the ?? defaults of line
115 never apply. -/
def velocityOf (node : Node) (store : Store) : ℝ :=
  let prev := if 1 < store.historyLen node.historyRef then node else node
  jsHypot (vecDiff (stateVecOf node) (stateVecOf prev))

/-- stagnation update (line 117). -/
def stagnationNext (node : Node) (store : Store) : ℝ :=
  clamp (node.stagnation + (if velocityOf node store < 0.001 then 0.05 else -0.04)) 0 1

/-- learningRate (line 118): contributions.length is truthy exactly when
the list is nonempty. -/
def learningRateNext (node : Node) (ctx : Ctx) (store : Store) : ℝ :=
  velocityOf node store *
    (if ctx.contributions.isEmpty then 0.3 else avg ctx.contributions / 10)

/-- entropy (line 121), from the original coherence and the updated
stagnation. -/
def entropyUpdated (node : Node) (ctx : Ctx) (store : Store) : ℝ :=
  clamp ((1 - node.coherence / 100) * (1 + stagnationNext node store * 2) *
    (1 - learningRateNext node ctx store)) 0.1 1000

/-- growthPotential (line 124). -/
def growthPotentialNext (node : Node) (ctx : Ctx) (store : Store) : ℝ :=
  entropyUpdated node ctx store * learningRateNext node ctx store /
    (stagnationNext node store + 0.1)

/-- geometry alignment (lines 127 to 130). -/
def rotationAligned (node : Node) (ctx : Ctx) : ℝ :=
  if ctx.neighbors.isEmpty then node.rotation
  else node.rotation +
    0.04 * (avg (ctx.neighbors.map Node.rotation) - node.rotation)

/-- The angle samples of line 135: neighbor rotations then the own, already
aligned, rotation. -/
def thetaVecOf (node : Node) (ctx : Ctx) : List ℝ :=
  (ctx.neighbors.map Node.rotation) ++ [rotationAligned node ctx]

/-- The coherence estimate rc of line 136. -/
def regionCohOf (node : Node) (ctx : Ctx) : ℝ :=
  avg ((ctx.neighbors.map Node.coherence) ++ [node.coherence])

/-- band.center after lines 133 to 137: the default center is the own hue. -/
def bandCenterOf (node : Node) (ctx : Ctx) : ℝ :=
  match ctx.regionObj with
  | none => node.hue
  | some r => (r.allowedHueBand (thetaVecOf node ctx) (regionCohOf node ctx)).1.center

/-- band.halfWidth after lines 133 to 137: the default is 0.5. -/
def bandHalfWidthOf (node : Node) (ctx : Ctx) : ℝ :=
  match ctx.regionObj with
  | none => 0.5
  | some r => (r.allowedHueBand (thetaVecOf node ctx) (regionCohOf node ctx)).1.halfWidth

/-- hue after the band step (lines 138 to 139); without a region the hue is
untouched here. -/
def huePostBand (node : Node) (ctx : Ctx) : ℝ :=
  match ctx.regionObj with
  | none => node.hue
  | some _ =>
      let diff := jsMod (bandCenterOf node ctx - node.hue + 1.5) 1 - 0.5
      jsMod (node.hue + 0.018 * diff + 1) 1

/-- The spatial neighbor set (line 146). -/
def spatialNbrOf (node : Node) (ctx : Ctx) : List Node :=
  match ctx.spatialNeighbors with
  | some l => l
  | none => ctx.neighbors.filter fun x => vlen (vsub node.pos x.pos) < node.range

/-- Force after neighbor attraction and short range repulsion
(lines 143 to 156), starting from the zero force of line 143. -/
def forceSpatial (node : Node) (ctx : Ctx) : Vec :=
  let nbrs := spatialNbrOf node ctx
  if nbrs.isEmpty then ⟨0, 0, 0⟩ else
    let centroid := nbrs.foldl (fun a x => vadd a x.pos) ⟨0, 0, 0⟩
    let avgC := vscale centroid (1 / (nbrs.length : ℝ))
    let f1 := vadd ⟨0, 0, 0⟩
      (vscale (vnorm (vsub avgC node.pos)) (0.002 * (node.coherence / 100)))
    nbrs.foldl (fun f o =>
      let dvec := vsub node.pos o.pos
      let d := vlen dvec
      if d < 6 then vadd f (vscale (vnorm dvec) (0.02 * (6 - d))) else f) f1

/-- Force after the region field pull (lines 159 to 162). -/
def forceWithField (node : Node) (ctx : Ctx) : Vec :=
  match ctx.regionObj with
  | none => forceSpatial node ctx
  | some r => vadd (forceSpatial node ctx) (vscale (r.computeFieldAt node.pos) 1)

/-- Horizon pull (lines 165 to 171): fires only when coherence > 75,
growthPotential > 1.2 and the region has a parent; the rotation bias reads
ghost.meanTheta after the allowedHueBand([], coh) call of line 168 has
overwritten it, and the hue bias reads the center of that same call. -/
def horizonPull (coh gp rotation hue : ℝ) (regionObj : Option Region) : ℝ × ℝ :=
  match regionObj with
  | none => (0, 0)
  | some r =>
    match r.parentRegion with
    | none => (0, 0)
    | some ghost =>
        if coh > 75 ∧ gp > 1.2 then
          let gb := ghost.allowedHueBand [] coh
          (0.008 * (gb.2.self.meanTheta - rotation), 0.006 * (gb.1.center - hue))
        else (0, 0)

/-- The horizon pull at the arguments evolveNode passes it. -/
def horizonOf (node : Node) (ctx : Ctx) (store : Store) : ℝ × ℝ :=
  horizonPull node.coherence (growthPotentialNext node ctx store)
    (rotationAligned node ctx) (huePostBand node ctx) ctx.regionObj

/-- The breakthrough condition of line 172, on the original coherence and
the updated stagnation. -/
def breakthroughFires (node : Node) (store : Store) : Prop :=
  node.coherence > 92 ∧ stagnationNext node store > 0.8

/-- horizonTheta as applied at line 176: the horizon pull plus, when the
breakthrough fires, the random jitter of line 173. -/
def horizonThetaOf (node : Node) (ctx : Ctx) (store : Store) : ℝ :=
  (horizonOf node ctx store).1 +
    (if breakthroughFires node store then (ctx.randBreak - 0.5) * 0.2 else 0)

/-- entropy after the breakthrough bump of line 174. -/
def entropyNext (node : Node) (ctx : Ctx) (store : Store) : ℝ :=
  if breakthroughFires node store then entropyUpdated node ctx store + 0.1
  else entropyUpdated node ctx store

/-- rotation after line 176. -/
def rotationNext (node : Node) (ctx : Ctx) (store : Store) : ℝ :=
  rotationAligned node ctx + horizonThetaOf node ctx store

/-- hue after line 177. -/
def hueNext (node : Node) (ctx : Ctx) (store : Store) : ℝ :=
  jsMod (huePostBand node ctx + (horizonOf node ctx store).2 + 1) 1

/-- The jitter scale of line 180. -/
def jitterScaleOf (node : Node) : ℝ := 1 + (1 - node.coherence / 100) * 1.5

/-- Force after the motion jitter of lines 181 to 182. -/
def forceTotal (node : Node) (ctx : Ctx) : Vec :=
  ⟨(forceWithField node ctx).x + (ctx.randX - 0.5) * 0.0005 * jitterScaleOf node,
   (forceWithField node ctx).y + (ctx.randY - 0.5) * 0.0005 * jitterScaleOf node,
   (forceWithField node ctx).z⟩

/-- acc (line 185). -/
def accNext (node : Node) (ctx : Ctx) : Vec :=
  vscale (forceTotal node ctx) (1 / node.mass)

/-- vel (line 186). -/
def velNext (node : Node) (ctx : Ctx) : Vec :=
  vadd (vscale node.vel 0.98) (accNext node ctx)

/-- pos before the boundary clamp (line 187). -/
def posIntegrated (node : Node) (ctx : Ctx) : Vec :=
  vadd node.pos (velNext node ctx)

/-- pos after the world boundary clamp (line 190). -/
def posNext (node : Node) (ctx : Ctx) : Vec :=
  if vlen (posIntegrated node ctx) > 500
  then vscale (vnorm (posIntegrated node ctx)) 475
  else posIntegrated node ctx

/-- One observer contribution to the gaze (lines 196 to 207); a continue of
the source contributes 0. -/
def gazeContrib (pos : Vec) (obs : Node) : ℝ :=
  if obs.coherence ≤ 80 then 0 else
  let vec := vsub pos obs.pos
  let dist := vlen vec
  if dist > obs.range then 0 else
  let dir := vnorm vec
  let angle := Real.arccos (max (-1)
    (min 1 (Real.cos obs.rotation * dir.x + Real.sin obs.rotation * dir.y)))
  if angle ≤ obs.fov / 2 then (obs.coherence / 100) * (1 - clamp (dist / obs.range) 0 1)
  else 0

/-- The accumulated gaze (lines 193 to 209), at the already updated
position. -/
def gazeOf (node : Node) (ctx : Ctx) : ℝ :=
  match ctx.regionObj with
  | none => 0
  | some r =>
      (r.self.observers.map fun oid =>
        match ctx.allNodes oid with
        | none => 0
        | some obs => gazeContrib (posNext node ctx) obs).sum

/-- coherence (line 212), from the updated entropy and growthPotential. -/
def coherenceNext (node : Node) (ctx : Ctx) (store : Store) : ℝ :=
  clamp (10 * ctx.contributions.sum / (entropyNext node ctx store + 1) *
    (1 + 0.01 * growthPotentialNext node ctx store)) 0 100

/-- The sandbox ratchet (line 213). -/
def sandboxRatchet (node : Node) (ctx : Ctx) (store : Store) : ℝ :=
  if coherenceNext node ctx store > 80 then min 10 (node.sandbox * 1.006)
  else max 0.3 (node.sandbox * 0.994)

/-- The observer eligibility flag (line 214). -/
def observerNext (node : Node) (ctx : Ctx) (store : Store) : Bool :=
  if coherenceNext node ctx store > 85 ∧ 3 ≤ node.childrenLen then true else false

/-- health (line 217). -/
def healthNext (node : Node) (ctx : Ctx) (store : Store) : ℝ :=
  clamp ((coherenceNext node ctx store / 100) * (1 - entropyNext node ctx store / 10) *
    (1 - stagnationNext node store)) 0 1

/-- The incubationHistory array after the push of line 218 and the
conditional shift of line 219, performed in place on the array node
references. -/
def incubListNext (node : Node) (ctx : Ctx) (store : Store) : List ℝ :=
  let l := store.incub node.incubRef ++ [healthNext node ctx store]
  if l.length > 40 then l.tail else l

/-- incubationScore (line 220). -/
def incubScoreNext (node : Node) (ctx : Ctx) (store : Store) : ℝ :=
  avg (incubListNext node ctx store)

/-- incubating after the exit test of line 221. -/
def incubatingNext (node : Node) (ctx : Ctx) (store : Store) : Bool :=
  if node.incubating ∧ incubScoreNext node ctx store > 0.85 ∧
      growthPotentialNext node ctx store > 1.0
  then false else node.incubating

/-- sandbox after the incubation cap of line 222. -/
def sandboxNext (node : Node) (ctx : Ctx) (store : Store) : ℝ :=
  if incubatingNext node ctx store then min (sandboxRatchet node ctx store) 1.2
  else sandboxRatchet node ctx store

/-- The awareness record of lines 225 to 231. -/
def awarenessNext (node : Node) (ctx : Ctx) (store : Store) : Awareness where
  velocity := velocityOf node store
  alignmentScore := coherenceNext node ctx store / 100
  hueConvergence :=
    if bandHalfWidthOf node ctx > 0
    then 1 - |hueNext node ctx store - bandCenterOf node ctx| / bandHalfWidthOf node ctx
    else 0
  gazeIntensity := gazeOf node ctx
  isHappyChallenged :=
    if coherenceNext node ctx store > 65 ∧ growthPotentialNext node ctx store > 1.0 ∧
        stagnationNext node store < 0.6 ∧
        (horizonThetaOf node ctx store ≠ 0 ∨ coherenceNext node ctx store > 80)
    then true else false

/-- The value the step computes (lines 110 to 231): the returned object n
with every overwritten field, and the store after the in-place
incubationHistory update.  Fields the step does not assign (angles, mass,
range, fov, childrenLen, the two array references) are those of the spread
copy. -/
def evolveValue (node : Node) (ctx : Ctx) (store : Store) : Node × Store :=
  ({ node with
      hue := hueNext node ctx store
      rotation := rotationNext node ctx store
      coherence := coherenceNext node ctx store
      entropy := entropyNext node ctx store
      sandbox := sandboxNext node ctx store
      stagnation := stagnationNext node store
      learningRate := learningRateNext node ctx store
      growthPotential := growthPotentialNext node ctx store
      pos := posNext node ctx
      vel := velNext node ctx
      acc := accNext node ctx
      incubating := incubatingNext node ctx store
      incubationScore := incubScoreNext node ctx store
      observer := observerNext node ctx store
      awareness := awarenessNext node ctx store },
   { store with incub := fun r =>
      if r = node.incubRef then incubListNext node ctx store else store.incub r })

inductive EvolveError where
  | snapshotNotAFunction

/-- evolveNode (lines 108 to 235).  n is a plain object (the spread of line
110), so it has no snapshot method; when the 2 percent draw of line 233
fires, n.snapshot() is a call of undefined and the step throws a TypeError
instead of returning.  The incubationHistory write of lines 218 to 219 has
already happened by then, so the store update survives either way. -/
def evolveNode (node : Node) (ctx : Ctx) (store : Store) :
    Except EvolveError Node × Store :=
  let r := evolveValue node ctx store
  (match ctx.checkpointDraw with
   | true => Except.error EvolveError.snapshotNotAFunction
   | false => Except.ok r.1,
   r.2)

/-- Repeated evolution steps, the store threaded through. -/
def iterateEvolve : Node → Store → List Ctx → Node × Store
  | node, store, [] => (node, store)
  | node, store, c :: rest =>
      let r := evolveValue node c store
      iterateEvolve r.1 r.2 rest

/-! ## Basic lemmas -/

theorem vecDiff_self (l : List ℝ) : vecDiff l l = l.map fun _ => (0 : ℝ) := by
  induction l with
  | nil => simp [vecDiff]
  | cons v a ih => simp [vecDiff, ih]

theorem sum_map_zero (l : List ℝ) : (l.map fun _ => (0 : ℝ)).sum = 0 := by
  induction l with
  | nil => simp
  | cons v a ih => simp [ih]

theorem jsHypot_zeroes (l : List ℝ) : jsHypot (l.map fun _ => (0 : ℝ)) = 0 := by
  have h : ((l.map fun _ => (0 : ℝ)).map fun v => v ^ 2) = l.map fun _ => (0 : ℝ) := by
    simp [List.map_map, Function.comp]
  rw [jsHypot, h, sum_map_zero, Real.sqrt_zero]

/-- The prev of line 113 aliases the unmodified copy of node, so the
velocity of every step is 0. -/
theorem velocityOf_eq_zero (node : Node) (store : Store) : velocityOf node store = 0 := by
  rw [velocityOf]
  simp only [ite_self]
  rw [vecDiff_self, jsHypot_zeroes]

theorem learningRateNext_eq_zero (node : Node) (ctx : Ctx) (store : Store) :
    learningRateNext node ctx store = 0 := by
  rw [learningRateNext, velocityOf_eq_zero, zero_mul]

theorem growthPotentialNext_eq_zero (node : Node) (ctx : Ctx) (store : Store) :
    growthPotentialNext node ctx store = 0 := by
  rw [growthPotentialNext, learningRateNext_eq_zero, mul_zero, zero_div]

theorem stagnationNext_eq (node : Node) (store : Store) :
    stagnationNext node store = clamp (node.stagnation + 0.05) 0 1 := by
  rw [stagnationNext, velocityOf_eq_zero]
  norm_num

theorem horizonPull_of_low_gp (coh gp rot hue : ℝ) (reg : Option Region)
    (h : ¬ gp > 1.2) : horizonPull coh gp rot hue reg = (0, 0) := by
  match reg with
  | none => rfl
  | some r =>
    rw [horizonPull]
    match r.parentRegion with
    | none => rfl
    | some ghost => exact if_neg fun hc => h hc.2

theorem horizonOf_eq_zero (node : Node) (ctx : Ctx) (store : Store) :
    horizonOf node ctx store = (0, 0) := by
  rw [horizonOf, growthPotentialNext_eq_zero]
  exact horizonPull_of_low_gp _ _ _ _ _ (by norm_num)

theorem incubatingNext_eq (node : Node) (ctx : Ctx) (store : Store) :
    incubatingNext node ctx store = node.incubating := by
  rw [incubatingNext, growthPotentialNext_eq_zero, if_neg]
  rintro ⟨-, -, h⟩
  norm_num at h

/-! ## clamp and jsMod bounds -/

theorem clamp_le_right (v a b : ℝ) (hab : a ≤ b) : clamp v a b ≤ b := by
  rw [clamp]
  exact max_le hab (min_le_left _ _)

theorem left_le_clamp (v a b : ℝ) : a ≤ clamp v a b := le_max_left _ _

theorem clamp_le_of_le (v a b c : ℝ) (ha : a ≤ c) (hv : v ≤ c) : clamp v a b ≤ c := by
  rw [clamp]
  exact max_le ha (le_trans (min_le_right _ _) hv)

theorem mul_floor_le (a b : ℝ) (hb : 0 < b) : b * ((Int.floor (a / b) : ℤ) : ℝ) ≤ a := by
  have hba : b * (a / b) = a := by field_simp
  have h := mul_le_mul_of_nonneg_left (Int.floor_le (a / b)) hb.le
  rwa [hba] at h

theorem lt_mul_floor_add (a b : ℝ) (hb : 0 < b) :
    a < b * (((Int.floor (a / b) : ℤ) : ℝ) + 1) := by
  have hba : b * (a / b) = a := by field_simp
  have h := mul_lt_mul_of_pos_left (Int.lt_floor_add_one (a / b)) hb
  rwa [hba] at h

theorem le_mul_ceil (a b : ℝ) (hb : 0 < b) : a ≤ b * ((Int.ceil (a / b) : ℤ) : ℝ) := by
  have hba : b * (a / b) = a := by field_simp
  have h := mul_le_mul_of_nonneg_left (Int.le_ceil (a / b)) hb.le
  rwa [hba] at h

theorem mul_ceil_lt_add (a b : ℝ) (hb : 0 < b) :
    b * ((Int.ceil (a / b) : ℤ) : ℝ) < a + b := by
  have hba : b * (a / b) = a := by field_simp
  have h := mul_lt_mul_of_pos_left (Int.ceil_lt_add_one (a / b)) hb
  rw [mul_add, mul_one, hba] at h
  linarith

theorem jsMod_nonneg (a b : ℝ) (ha : 0 ≤ a) (hb : 0 < b) : 0 ≤ jsMod a b := by
  rw [jsMod, jsTrunc, if_pos (div_nonneg ha hb.le)]
  have h := mul_floor_le a b hb
  linarith

theorem jsMod_lt (a b : ℝ) (ha : 0 ≤ a) (hb : 0 < b) : jsMod a b < b := by
  rw [jsMod, jsTrunc, if_pos (div_nonneg ha hb.le)]
  have h := lt_mul_floor_add a b hb
  nlinarith

theorem neg_lt_jsMod (a b : ℝ) (hb : 0 < b) : -b < jsMod a b := by
  rw [jsMod, jsTrunc]
  by_cases h : 0 ≤ a / b
  · rw [if_pos h]
    have h1 := mul_floor_le a b hb
    linarith
  · rw [if_neg h]
    have h1 := mul_ceil_lt_add a b hb
    linarith

theorem jsMod_lt_of_any (a b : ℝ) (hb : 0 < b) : jsMod a b < b := by
  rw [jsMod, jsTrunc]
  by_cases h : 0 ≤ a / b
  · rw [if_pos h]
    have h1 := lt_mul_floor_add a b hb
    nlinarith
  · rw [if_neg h]
    have h1 := le_mul_ceil a b hb
    linarith

theorem jsMod_zero_left (b : ℝ) : jsMod 0 b = 0 := by
  rw [jsMod, zero_div, jsTrunc, if_pos le_rfl]
  simp

theorem jsMod_self_right (b : ℝ) (hb : b ≠ 0) : jsMod b b = 0 := by
  rw [jsMod, div_self hb, jsTrunc, if_pos zero_le_one]
  simp

theorem allowedHueBand_meanTheta (r : Region) (tv : List ℝ) (coh : ℝ) :
    (r.allowedHueBand tv coh).2.self.meanTheta = avg tv := rfl

theorem allowedHueBand_center_eq (r : Region) (tv : List ℝ) (coh : ℝ) :
    (r.allowedHueBand tv coh).1.center =
      jsMod (jsMod (avg tv) (2 * Real.pi) + 2 * Real.pi) (2 * Real.pi) / (2 * Real.pi) := rfl

theorem avg_nil : avg [] = 0 := rfl

/-- An empty sample list yields the mean 0 and hence the center 0, whatever
the cached meanTheta was. -/
theorem allowedHueBand_empty_center (r : Region) (coh : ℝ) :
    (r.allowedHueBand [] coh).1.center = 0 := by
  have hpi : (2 * Real.pi) ≠ 0 := by positivity
  rw [allowedHueBand_center_eq, avg_nil, jsMod_zero_left, zero_add,
    jsMod_self_right _ hpi, zero_div]

/-- The center computed by allowedHueBand lies in [0, 1). -/
theorem bandCenter_mem (r : Region) (tv : List ℝ) (coh : ℝ) :
    0 ≤ (r.allowedHueBand tv coh).1.center ∧ (r.allowedHueBand tv coh).1.center < 1 := by
  rw [Region.allowedHueBand]
  simp only
  have hpi : (0 : ℝ) < 2 * Real.pi := by positivity
  have h0 : 0 ≤ jsMod (avg tv) (2 * Real.pi) + 2 * Real.pi := by
    have := neg_lt_jsMod (avg tv) (2 * Real.pi) hpi
    linarith
  constructor
  · exact div_nonneg (jsMod_nonneg _ _ h0 hpi) hpi.le
  · rw [div_lt_one hpi]
    exact jsMod_lt _ _ h0 hpi

/-! ## Length and boundary lemmas -/

theorem vlen_nonneg (v : Vec) : 0 ≤ vlen v := Real.sqrt_nonneg _

theorem vlen_vscale (v : Vec) (c : ℝ) : vlen (vscale v c) = |c| * vlen v := by
  rw [vlen, vlen, vscale]
  have h : (v.x * c) ^ 2 + (v.y * c) ^ 2 + (v.z * c) ^ 2 =
      c ^ 2 * (v.x ^ 2 + v.y ^ 2 + v.z ^ 2) := by ring
  rw [h, Real.sqrt_mul (sq_nonneg c), Real.sqrt_sq_eq_abs]

theorem vlen_vnorm (v : Vec) (h : vlen v ≠ 0) : vlen (vnorm v) = 1 := by
  have hpos : 0 < vlen v := lt_of_le_of_ne (vlen_nonneg v) (Ne.symm h)
  rw [vnorm]
  simp only [if_neg h]
  rw [vlen_vscale, abs_of_pos (by positivity : (0 : ℝ) < 1 / vlen v)]
  field_simp

/-- The world boundary clamp of line 190 keeps every position within 500. -/
theorem posNext_le (node : Node) (ctx : Ctx) : vlen (posNext node ctx) ≤ 500 := by
  rw [posNext]
  by_cases h : vlen (posIntegrated node ctx) > 500
  · rw [if_pos h, vlen_vscale, vlen_vnorm]
    · rw [mul_one]
      norm_num
    · intro h0
      rw [h0] at h
      norm_num at h
  · rw [if_neg h]
    linarith [not_lt.mp h]

theorem incubListNext_length (node : Node) (ctx : Ctx) (store : Store)
    (h : (store.incub node.incubRef).length ≤ 40) :
    (incubListNext node ctx store).length =
      min ((store.incub node.incubRef).length + 1) 40 := by
  rw [incubListNext]
  simp only [List.length_append, List.length_cons, List.length_nil]
  by_cases hl : (store.incub node.incubRef).length + (0 + 1) > 40
  · rw [if_pos hl]
    simp only [List.length_tail, List.length_append, List.length_cons, List.length_nil]
    omega
  · rw [if_neg hl]
    simp only [List.length_append, List.length_cons, List.length_nil]
    omega

/-! ## Field bound lemmas (claim C5) -/

theorem coherenceNext_mem (node : Node) (ctx : Ctx) (store : Store) :
    0 ≤ coherenceNext node ctx store ∧ coherenceNext node ctx store ≤ 100 :=
  ⟨left_le_clamp _ _ _, clamp_le_right _ _ _ (by norm_num)⟩

theorem stagnationNext_mem (node : Node) (store : Store) :
    0 ≤ stagnationNext node store ∧ stagnationNext node store ≤ 1 :=
  ⟨left_le_clamp _ _ _, clamp_le_right _ _ _ (by norm_num)⟩

theorem entropyUpdated_mem (node : Node) (ctx : Ctx) (store : Store) :
    0.1 ≤ entropyUpdated node ctx store ∧ entropyUpdated node ctx store ≤ 1000 :=
  ⟨left_le_clamp _ _ _, clamp_le_right _ _ _ (by norm_num)⟩

/-- In the breakthrough branch the pre-bump entropy is at most 0.24: the
coherence is above 92 there and the learning rate is 0. -/
theorem entropyUpdated_of_breakthrough (node : Node) (ctx : Ctx) (store : Store)
    (hc : node.coherence > 92) : entropyUpdated node ctx store ≤ 0.24 := by
  rw [entropyUpdated, learningRateNext_eq_zero]
  have hs := stagnationNext_mem node store
  have hP : (1 - node.coherence / 100) * (1 + stagnationNext node store * 2) * (1 - 0) ≤
      0.24 := by nlinarith [hs.1, hs.2]
  exact clamp_le_of_le _ _ _ _ (by norm_num) hP

theorem entropyNext_mem (node : Node) (ctx : Ctx) (store : Store) :
    0.1 ≤ entropyNext node ctx store ∧ entropyNext node ctx store ≤ 1000 := by
  rw [entropyNext]
  have h := entropyUpdated_mem node ctx store
  by_cases hb : breakthroughFires node store
  · rw [if_pos hb]
    have h24 := entropyUpdated_of_breakthrough node ctx store hb.1
    constructor <;> linarith
  · rw [if_neg hb]
    exact h

theorem sandboxNext_mem (node : Node) (ctx : Ctx) (store : Store)
    (h3 : 0.3 ≤ node.sandbox) (h10 : node.sandbox ≤ 10) :
    0.3 ≤ sandboxNext node ctx store ∧ sandboxNext node ctx store ≤ 10 := by
  have hr : 0.3 ≤ sandboxRatchet node ctx store ∧ sandboxRatchet node ctx store ≤ 10 := by
    rw [sandboxRatchet]
    by_cases hc : coherenceNext node ctx store > 80
    · rw [if_pos hc]
      constructor
      · exact le_min (by norm_num) (by linarith)
      · exact min_le_left _ _
    · rw [if_neg hc]
      constructor
      · exact le_max_left _ _
      · exact max_le (by norm_num) (by linarith)
  rw [sandboxNext]
  by_cases hi : incubatingNext node ctx store
  · rw [if_pos hi]
    exact ⟨le_min hr.1 (by norm_num), le_trans (min_le_left _ _) hr.2⟩
  · rw [if_neg hi]
    exact hr

theorem huePostBand_mem (node : Node) (ctx : Ctx)
    (h0 : 0 ≤ node.hue) (h1 : node.hue < 1) :
    0 ≤ huePostBand node ctx ∧ huePostBand node ctx < 1 := by
  rw [huePostBand]
  match hreg : ctx.regionObj with
  | none => exact ⟨h0, h1⟩
  | some r =>
    simp only
    have hc := bandCenter_mem r (thetaVecOf node ctx) (regionCohOf node ctx)
    have hcc : bandCenterOf node ctx =
        (r.allowedHueBand (thetaVecOf node ctx) (regionCohOf node ctx)).1.center := by
      rw [bandCenterOf, hreg]
    have hd1 : 0 ≤ bandCenterOf node ctx - node.hue + 1.5 := by
      rw [hcc]; linarith [hc.1]
    have hdm := jsMod_nonneg _ 1 hd1 one_pos
    have hdl := jsMod_lt _ 1 hd1 one_pos
    have hd2 : 0 ≤ node.hue + 0.018 * (jsMod (bandCenterOf node ctx - node.hue + 1.5) 1 - 0.5) + 1 := by
      nlinarith
    exact ⟨jsMod_nonneg _ 1 hd2 one_pos, jsMod_lt _ 1 hd2 one_pos⟩

theorem hueNext_mem (node : Node) (ctx : Ctx) (store : Store)
    (h0 : 0 ≤ node.hue) (h1 : node.hue < 1) :
    0 ≤ hueNext node ctx store ∧ hueNext node ctx store < 1 := by
  rw [hueNext, horizonOf_eq_zero]
  have hpb := huePostBand_mem node ctx h0 h1
  have hd : 0 ≤ huePostBand node ctx + (0, 0).2 + 1 := by
    simp only
    linarith [hpb.1]
  exact ⟨jsMod_nonneg _ 1 hd one_pos, jsMod_lt _ 1 hd one_pos⟩

/-! ## Projections of evolveValue -/

theorem evolveValue_incubRef (node : Node) (ctx : Ctx) (store : Store) :
    (evolveValue node ctx store).1.incubRef = node.incubRef := rfl

theorem evolveValue_historyRef (node : Node) (ctx : Ctx) (store : Store) :
    (evolveValue node ctx store).1.historyRef = node.historyRef := rfl

theorem evolveValue_incubating (node : Node) (ctx : Ctx) (store : Store) :
    (evolveValue node ctx store).1.incubating = node.incubating := incubatingNext_eq node ctx store

theorem evolveValue_store_incub (node : Node) (ctx : Ctx) (store : Store) :
    (evolveValue node ctx store).2.incub =
      fun r => if r = node.incubRef then incubListNext node ctx store else store.incub r := rfl

theorem evolveValue_store_historyLen (node : Node) (ctx : Ctx) (store : Store) :
    (evolveValue node ctx store).2.historyLen = store.historyLen := rfl

theorem evolveValue_store_at_ref (node : Node) (ctx : Ctx) (store : Store) :
    (evolveValue node ctx store).2.incub node.incubRef = incubListNext node ctx store := by
  rw [evolveValue_store_incub]
  simp

/-! ## The node invariant of the specification (section 8) -/

/-- The per-node invariant of specification section 8, read on a node and
the store holding its incubationHistory array. -/
def NodeInv (node : Node) (store : Store) : Prop :=
  0 ≤ node.hue ∧ node.hue < 1 ∧
  0 ≤ node.coherence ∧ node.coherence ≤ 100 ∧
  0 ≤ node.stagnation ∧ node.stagnation ≤ 1 ∧
  0.1 ≤ node.entropy ∧ node.entropy ≤ 1000 ∧
  0.3 ≤ node.sandbox ∧ node.sandbox ≤ 10 ∧
  vlen node.pos ≤ 500 ∧
  (store.incub node.incubRef).length ≤ 40

theorem NodeInv_preserved (node : Node) (ctx : Ctx) (store : Store) (h : NodeInv node store) :
    NodeInv (evolveValue node ctx store).1 (evolveValue node ctx store).2 := by
  obtain ⟨h1, h2, h3, h4, h5, h6, h7, h8, h9, h10, h11, h12⟩ := h
  have hhue := hueNext_mem node ctx store h1 h2
  have hcoh := coherenceNext_mem node ctx store
  have hstag := stagnationNext_mem node store
  have hent := entropyNext_mem node ctx store
  have hsand := sandboxNext_mem node ctx store h9 h10
  refine ⟨hhue.1, hhue.2, hcoh.1, hcoh.2, hstag.1, hstag.2, hent.1, hent.2,
    hsand.1, hsand.2, posNext_le node ctx, ?_⟩
  rw [evolveValue_incubRef, evolveValue_store_at_ref,
    incubListNext_length node ctx store h12]
  omega

/-- The length of the incubationHistory array across iterated steps. -/
theorem iterateEvolve_len (ctxs : List Ctx) : ∀ (node : Node) (store : Store),
    (store.incub node.incubRef).length ≤ 40 →
    ((iterateEvolve node store ctxs).2.incub (iterateEvolve node store ctxs).1.incubRef).length
      = min ((store.incub node.incubRef).length + ctxs.length) 40 := by
  induction ctxs with
  | nil =>
    intro node store h
    simp only [iterateEvolve, List.length_nil]
    omega
  | cons c rest ih =>
    intro node store h
    simp only [iterateEvolve]
    have hlen1 : ((evolveValue node c store).2.incub
        ((evolveValue node c store).1.incubRef)).length =
        min ((store.incub node.incubRef).length + 1) 40 := by
      rw [evolveValue_incubRef, evolveValue_store_at_ref]
      exact incubListNext_length node c store h
    have hrec := ih (evolveValue node c store).1 (evolveValue node c store).2
      (by rw [hlen1]; omega)
    rw [hrec, hlen1]
    simp only [List.length_cons]
    omega

/-- incubating is never set back to true: one step preserves a false flag. -/
theorem iterateEvolve_incubating (ctxs : List Ctx) : ∀ (node : Node) (store : Store),
    node.incubating = false → (iterateEvolve node store ctxs).1.incubating = false := by
  induction ctxs with
  | nil =>
    intro node store h
    simpa [iterateEvolve] using h
  | cons c rest ih =>
    intro node store h
    simp only [iterateEvolve]
    exact ih _ _ (by rw [evolveValue_incubating]; exact h)

/-! ## effectiveKappa: the formula of the claim versus the code (claim C7) -/

/-- Weighted mean with a fallback for zero total weight. -/
def weightedMean (ws ks : List ℝ) (fallback : ℝ) : ℝ :=
  if ws.sum = 0 then fallback
  else ((ws.zip ks).map fun p => p.1 * p.2).sum / ws.sum

/-- The formula claim C7 states, taken from its words: the self weight is
1 and every ancestor is weighted 0.88 to the power max(0, atGeneration
minus its generation), with the own kappa as the zero-weight fallback. -/
def specEffectiveKappa (r : Region) (g : ℤ) : ℝ :=
  weightedMean ((1 : ℝ) :: (r.ancestors.map fun d => powDecay (g - d.generation)))
    (r.self.kappa :: r.ancestors.map RegionData.kappa) r.self.kappa

/-- The weights the code actually uses, read along the chain from self to
root: a region that has a parent is weighted by the decay power, the
parentless root by 1. -/
def specAmendedWeights (g : ℤ) : List RegionData → List ℝ
  | [] => []
  | [_] => [1]
  | d :: p :: rest => powDecay (g - d.generation) :: specAmendedWeights g (p :: rest)

def chainOf (r : Region) : List RegionData := r.self :: r.ancestors

/-- The amended formula: the weighted mean over the chain with the weights
of specAmendedWeights. -/
def specEffectiveKappaAmended (r : Region) (g : ℤ) : ℝ :=
  weightedMean (specAmendedWeights g (chainOf r)) ((chainOf r).map RegionData.kappa)
    r.self.kappa

theorem kappaWalk_eq (g : ℤ) (l : List RegionData) : ∀ d : RegionData,
    kappaWalk d l g =
      ((((specAmendedWeights g (d :: l)).zip ((d :: l).map RegionData.kappa)).map
          fun p => p.1 * p.2).sum,
       (specAmendedWeights g (d :: l)).sum) := by
  induction l with
  | nil =>
    intro d
    simp [kappaWalk, specAmendedWeights]
  | cons p rest ih =>
    intro d
    rw [kappaWalk, ih p]
    simp only [specAmendedWeights, List.map_cons, List.zip_cons_cons, List.sum_cons]
    exact Prod.ext (by ring) (by ring)

/-- The code equals the amended weighted mean everywhere. -/
theorem effectiveKappa_eq_amended (r : Region) (g : ℤ) :
    r.effectiveKappa g = specEffectiveKappaAmended r g := by
  rw [Region.effectiveKappa, specEffectiveKappaAmended, weightedMean, chainOf]
  rw [kappaWalk_eq g r.ancestors r.self]

/-- A region with no parent: its effective kappa is its own kappa. -/
theorem effectiveKappa_root (r : Region) (g : ℤ) (h : r.ancestors = []) :
    r.effectiveKappa g = r.self.kappa := by
  rw [Region.effectiveKappa, h]
  simp [kappaWalk]

/-! ## The field at and near its center (claim C10) -/

theorem vlen_zero_vec : vlen ⟨0, 0, 0⟩ = 0 := by
  rw [vlen]
  norm_num

theorem vnorm_zero_vec : vnorm ⟨0, 0, 0⟩ = ⟨0, 0, 0⟩ := by
  rw [vnorm, vlen_zero_vec]
  simp [vscale]

theorem vlen_axis (t : ℝ) (h : 0 ≤ t) : vlen ⟨t, 0, 0⟩ = t := by
  rw [vlen]
  norm_num
  rw [Real.sqrt_sq h]

theorem vnorm_axis (t : ℝ) (h : 0 < t) : vnorm ⟨t, 0, 0⟩ = ⟨1, 0, 0⟩ := by
  rw [vnorm, vlen_axis t h.le, if_neg h.ne.symm, vscale]
  norm_num
  exact div_self h.ne.symm

/-! ## Concrete fixtures for witnesses and counterexamples.

baseNode carries the deterministic constructor defaults of lines 77 to 96
(coherence 50, entropy 1, sandbox 1, mass 1, range 30, fov 0.9 pi,
incubating true) with hue, rotation and position fixed at 0; emptyStore is
a store of empty incubationHistory arrays whose history arrays hold the one
constructor hash; quietCtx is a step with no neighbors, no region, no
contributions and all random draws at one half. -/

def baseNode : Node where
  hue := 0
  rotation := 0
  coherence := 50
  entropy := 1
  sandbox := 1
  stagnation := 0
  learningRate := 0
  growthPotential := 0
  angles := []
  pos := ⟨0, 0, 0⟩
  vel := ⟨0, 0, 0⟩
  acc := ⟨0, 0, 0⟩
  mass := 1
  range := 30
  fov := Real.pi * 0.9
  incubating := true
  incubationScore := 0
  childrenLen := 0
  observer := false
  incubRef := 0
  historyRef := 0
  awareness := ⟨0, 0, 0, 0, false⟩

def emptyStore : Store := ⟨fun _ => [], fun _ => 1⟩

def quietCtx : Ctx where
  neighbors := []
  spatialNeighbors := some []
  regionObj := none
  contributions := []
  allNodes := fun _ => none
  randBreak := 1 / 2
  randX := 1 / 2
  randY := 1 / 2
  checkpointDraw := false

/-- quietCtx with the 2 percent checkpoint draw firing. -/
def drawCtx : Ctx := { quietCtx with checkpointDraw := true }

theorem healthNext_mem (node : Node) (ctx : Ctx) (store : Store) :
    0 ≤ healthNext node ctx store ∧ healthNext node ctx store ≤ 1 :=
  ⟨left_le_clamp _ _ _, clamp_le_right _ _ _ (by norm_num)⟩

/-- Push one health value and evict the oldest entry when the array would
exceed 40 (lines 218 to 219). -/
def pushTrim (l : List ℝ) (h : ℝ) : List ℝ :=
  if (l ++ [h]).length > 40 then (l ++ [h]).tail else l ++ [h]

theorem incubListNext_eq_pushTrim (node : Node) (ctx : Ctx) (store : Store) :
    incubListNext node ctx store =
      pushTrim (store.incub node.incubRef) (healthNext node ctx store) := rfl

/-! ## Claim C1 (code_bug) -/

theorem evolveNode_error_on_draw (node : Node) (ctx : Ctx) (store : Store)
    (h : ctx.checkpointDraw = true) :
    (evolveNode node ctx store).1 = Except.error EvolveError.snapshotNotAFunction := by
  rw [evolveNode]
  simp only [h]

/-- Claim C1: the claim states that evolveNode never raises an error and
that the 2 percent branch successfully emits a checkpoint token.  The code
contradicts it: n is the plain-object spread of line 110, which carries no
prototype method, so the n.snapshot() call of line 233 is a call of
undefined and throws a TypeError whenever the draw fires.  Here the step on
a default node under the firing draw returns the error. -/
theorem c1_snapshot_throws :
    (evolveNode baseNode drawCtx emptyStore).1 =
      Except.error EvolveError.snapshotNotAFunction :=
  evolveNode_error_on_draw baseNode drawCtx emptyStore rfl

/-! ## Claim C2 (corrected): the shared incubationHistory array is mutated -/

/-- Counterexample to claim C2: the input node references the
incubationHistory array at its incubRef; the step pushes the new health
onto that very array (the spread copy holds the same reference), so after
the call the array the input node references has length 1, not its original
0.  The original list is unchanged as a value, but the array cell both
objects point at is overwritten. -/
theorem c2_counterexample :
    ((evolveValue baseNode quietCtx emptyStore).2.incub baseNode.incubRef).length = 1 ∧
    (emptyStore.incub baseNode.incubRef).length = 0 := by
  constructor
  · rw [evolveValue_store_at_ref, incubListNext]
    simp [emptyStore]
  · simp [emptyStore]

/-- Claim C2 (amended): evolveNode never reassigns a field of the input
node and the history array is untouched, but the incubationHistory array
the input shares with the returned copy is updated in place: it becomes the
old contents plus one clamped health value, trimmed to the newest 40; every
other array cell is untouched. -/
theorem c2_no_mutation_except_history :
    ∀ (node : Node) (ctx : Ctx) (store : Store),
    (evolveValue node ctx store).1.incubRef = node.incubRef ∧
    (evolveValue node ctx store).1.historyRef = node.historyRef ∧
    (evolveValue node ctx store).2.historyLen = store.historyLen ∧
    ∃ h : ℝ, 0 ≤ h ∧ h ≤ 1 ∧
      (evolveValue node ctx store).2.incub = fun r =>
        if r = node.incubRef then pushTrim (store.incub node.incubRef) h
        else store.incub r := by
  intro node ctx store
  refine ⟨rfl, rfl, rfl, healthNext node ctx store,
    (healthNext_mem node ctx store).1, (healthNext_mem node ctx store).2, ?_⟩
  rw [evolveValue_store_incub]
  simp only [incubListNext_eq_pushTrim]

/-! ## Claim C4 (confirmed): the aliased previous state -/

/-- Claim C4: the previous state of line 113 aliases the current one, so
velocity is 0, hence learningRate and growthPotential of the returned node
are 0, the horizon pull contributes nothing, and the incubation exit guard
growthPotential greater than 1.0 can never fire: incubating is returned
unchanged. -/
theorem c4_degenerate_step :
    ∀ (node : Node) (ctx : Ctx) (store : Store),
    velocityOf node store = 0 ∧
    (evolveValue node ctx store).1.learningRate = 0 ∧
    (evolveValue node ctx store).1.growthPotential = 0 ∧
    horizonOf node ctx store = (0, 0) ∧
    (evolveValue node ctx store).1.incubating = node.incubating :=
  fun node ctx store =>
    ⟨velocityOf_eq_zero node store, learningRateNext_eq_zero node ctx store,
     growthPotentialNext_eq_zero node ctx store, horizonOf_eq_zero node ctx store,
     evolveValue_incubating node ctx store⟩

/-! ## Claim C5 (corrected): invariants are preserved, not unconditional -/

def c5node : Node := { baseNode with sandbox := 1000, incubating := false }

theorem coherenceNext_of_no_contributions (node : Node) (ctx : Ctx) (store : Store)
    (h : ctx.contributions = []) : coherenceNext node ctx store = 0 := by
  rw [coherenceNext, h]
  simp [clamp]

/-- Counterexample to claim C5 as stated (for EVERY input node): a node
entering the step with sandbox 1000 and incubating already false, under a
context with no contributions, leaves the step with sandbox 994, far
outside [0.3, 10]: line 213 only shrinks an oversized sandbox by factor
0.994 and line 222 does not cap a non-incubating node. -/
theorem c5_counterexample :
    (evolveValue c5node quietCtx emptyStore).1.sandbox = 994 ∧
    ¬ ((evolveValue c5node quietCtx emptyStore).1.sandbox ≤ 10) := by
  have hs : (evolveValue c5node quietCtx emptyStore).1.sandbox = 994 := by
    show sandboxNext c5node quietCtx emptyStore = 994
    rw [sandboxNext, incubatingNext_eq]
    rw [if_neg (by simp [c5node])]
    rw [sandboxRatchet, if_neg (by
      rw [coherenceNext_of_no_contributions c5node quietCtx emptyStore rfl]
      norm_num)]
    show max 0.3 (c5node.sandbox * 0.994) = 994
    rw [show c5node.sandbox = 1000 from rfl]
    norm_num
  exact ⟨hs, by rw [hs]; norm_num⟩

/-- Claim C5 (amended): the listed invariants hold for every node that
already satisfies them (all reachable states, the constructor defaults
included) and are preserved by every step; and from a fresh empty history
the incubationHistory length after k steps is min(k, 40), so it never
exceeds 40 and is exactly 40 once more than 40 steps have run. -/
theorem c5_invariants_preserved :
    (∀ (node : Node) (ctx : Ctx) (store : Store), NodeInv node store →
        NodeInv (evolveValue node ctx store).1 (evolveValue node ctx store).2) ∧
    (∀ (node : Node) (store : Store) (ctxs : List Ctx),
        store.incub node.incubRef = [] →
        ((iterateEvolve node store ctxs).2.incub
          (iterateEvolve node store ctxs).1.incubRef).length = min ctxs.length 40) := by
  constructor
  · exact NodeInv_preserved
  · intro node store ctxs h
    have hlen := iterateEvolve_len ctxs node store (by rw [h]; simp)
    rw [hlen, h]
    simp

theorem baseNode_inv : NodeInv baseNode emptyStore := by
  rw [NodeInv]
  refine ⟨?_, ?_, ?_, ?_, ?_, ?_, ?_, ?_, ?_, ?_, ?_, ?_⟩ <;>
    simp [baseNode, emptyStore] <;> norm_num [vlen_zero_vec]

/-- Witness for the amended claim C5 at the constructor-default node. -/
theorem c5_witness :
    NodeInv (evolveValue baseNode quietCtx emptyStore).1
      (evolveValue baseNode quietCtx emptyStore).2 :=
  c5_invariants_preserved.1 baseNode quietCtx emptyStore baseNode_inv

/-! ## Claim C6 (confirmed): incubating false is absorbing -/

/-- Claim C6: once incubating is false it stays false through any number of
further steps, for every context, contribution list and random draw: line
221 is the only write and only ever sets it to false. -/
theorem c6_incubating_monotone :
    ∀ (node : Node) (store : Store) (ctxs : List Ctx),
    node.incubating = false → (iterateEvolve node store ctxs).1.incubating = false :=
  fun node store ctxs h => iterateEvolve_incubating ctxs node store h

def c6node : Node := { baseNode with incubating := false }

theorem c6_witness :
    (iterateEvolve c6node emptyStore [quietCtx, drawCtx]).1.incubating = false :=
  c6_incubating_monotone c6node emptyStore [quietCtx, drawCtx] rfl

/-! ## Claim C3 (corrected): velocity is always 0 -/

/-- Claim C3 (amended): the velocity of step 1 is the Euclidean distance
between the current state vector and a prev vector that aliases the same
current values (no previous state is recorded; history holds only hashes),
so it is 0 on every call, and stagnation therefore always takes the rising
branch: plus 0.05, clamped to [0, 1]. -/
theorem c3_velocity_stagnation :
    ∀ (node : Node) (ctx : Ctx) (store : Store),
    velocityOf node store = 0 ∧
    (evolveValue node ctx store).1.stagnation = clamp (node.stagnation + 0.05) 0 1 :=
  fun node ctx store => ⟨velocityOf_eq_zero node store, stagnationNext_eq node store⟩

def c3nbr : Node := { baseNode with rotation := 1 }

def c3ctx : Ctx := { quietCtx with neighbors := [c3nbr] }

/-- The node one step after baseNode under c3ctx: its rotation has moved to
0.04 (4 percent toward the neighbor mean of 1) while everything else in the
state vector stays at 0. -/
def c3next : Node := (evolveValue baseNode c3ctx emptyStore).1

theorem not_breakthrough_base : ¬ breakthroughFires baseNode emptyStore := by
  rw [breakthroughFires]
  rintro ⟨h, -⟩
  rw [show baseNode.coherence = 50 from rfl] at h
  norm_num at h

theorem c3next_rotation : c3next.rotation = 0.04 := by
  show rotationNext baseNode c3ctx emptyStore = 0.04
  rw [rotationNext, horizonThetaOf, horizonOf_eq_zero, if_neg not_breakthrough_base]
  have h1 : rotationAligned baseNode c3ctx = 0.04 := by
    rw [rotationAligned, if_neg (by simp [c3ctx])]
    rw [show List.map Node.rotation c3ctx.neighbors = [c3nbr.rotation] from rfl]
    rw [show c3nbr.rotation = 1 from rfl, show baseNode.rotation = 0 from rfl, avg]
    norm_num
  rw [h1]
  norm_num

theorem c3next_hue : c3next.hue = 0 := by
  show hueNext baseNode c3ctx emptyStore = 0
  rw [hueNext, horizonOf_eq_zero]
  rw [show huePostBand baseNode c3ctx = 0 from rfl]
  rw [show (0 : ℝ) + (0, 0).2 + 1 = 1 by norm_num]
  exact jsMod_self_right 1 one_ne_zero

theorem c3next_pos : c3next.pos = ⟨0, 0, 0⟩ := by
  show posNext baseNode c3ctx = ⟨0, 0, 0⟩
  have hfs : forceSpatial baseNode c3ctx = ⟨0, 0, 0⟩ := by
    rw [forceSpatial]
    rw [show spatialNbrOf baseNode c3ctx = [] from rfl]
    simp
  have hfw : forceWithField baseNode c3ctx = ⟨0, 0, 0⟩ := by
    rw [show forceWithField baseNode c3ctx = forceSpatial baseNode c3ctx from rfl, hfs]
  have hft : forceTotal baseNode c3ctx = ⟨0, 0, 0⟩ := by
    rw [forceTotal, hfw]
    rw [show c3ctx.randX = 1 / 2 from rfl, show c3ctx.randY = 1 / 2 from rfl]
    norm_num
  have hint : posIntegrated baseNode c3ctx = ⟨0, 0, 0⟩ := by
    rw [posIntegrated, velNext, accNext, hft]
    rw [show baseNode.vel = (⟨0, 0, 0⟩ : Vec) from rfl,
      show baseNode.pos = (⟨0, 0, 0⟩ : Vec) from rfl]
    simp [vadd, vscale]
  rw [posNext, hint, vlen_zero_vec, if_neg (by norm_num)]

/-- Counterexample to claim C3 as stated: in the run that produced c3next
from baseNode, the Euclidean distance between the two state vectors is
0.04, but the velocity the next step computes at c3next is 0 (the code has
no previous recorded state to subtract; prev aliases current). -/
theorem c3_counterexample :
    velocityOf c3next (evolveValue baseNode c3ctx emptyStore).2 = 0 ∧
    jsHypot (vecDiff (stateVecOf c3next) (stateVecOf baseNode)) = 0.04 ∧
    ((0.04 : ℝ) ≠ 0) := by
  refine ⟨velocityOf_eq_zero _ _, ?_, by norm_num⟩
  rw [stateVecOf, stateVecOf, c3next_hue, c3next_rotation,
    show c3next.angles = ([] : List ℝ) from rfl, c3next_pos]
  rw [show baseNode.hue = 0 from rfl, show baseNode.rotation = 0 from rfl,
    show baseNode.angles = ([] : List ℝ) from rfl,
    show baseNode.pos = (⟨0, 0, 0⟩ : Vec) from rfl]
  simp only [List.nil_append]
  rw [show vecDiff [0, 0.04, 0, 0] [0, 0, 0, 0] =
    [0 - 0, 0.04 - 0, 0 - 0, 0 - 0] from rfl]
  rw [jsHypot]
  simp only [List.map_cons, List.map_nil, List.sum_cons, List.sum_nil]
  norm_num
  rw [show (625 : ℝ) = 25 ^ 2 by norm_num, Real.sqrt_sq (by norm_num)]
  norm_num

/-! ## Claim C7 (corrected): the root, not self, carries weight 1 -/

def c7root : RegionData := ⟨0.1, 0, ⟨0, 0, 0⟩, 0.008, 0, []⟩

def c7reg : Region := ⟨⟨0.12, 1, ⟨0, 0, 0⟩, 0.005, 0, []⟩, [c7root]⟩

/-- Counterexample to claim C7 as stated: for a child (kappa 0.12,
generation 1) of a root (kappa 0.1, generation 0) at atGeneration 1, the
code weights BOTH regions 1 (the child because its decay exponent is 0, the
root because a parentless cur gets weight 1 in line 50), giving 0.11; the
claim formula (self weight 1, ancestor weight 0.88) gives 26/235. -/
theorem c7_counterexample :
    Region.effectiveKappa c7reg 1 = 11 / 100 ∧
    specEffectiveKappa c7reg 1 = 26 / 235 ∧
    ((11 / 100 : ℝ) ≠ 26 / 235) := by
  refine ⟨?_, ?_, by norm_num⟩
  · rw [Region.effectiveKappa]
    have ht : kappaWalk c7reg.self c7reg.ancestors 1 = (0.22, 2) := by
      rw [show c7reg.ancestors = [c7root] from rfl]
      rw [kappaWalk, kappaWalk]
      rw [show powDecay (1 - c7reg.self.generation) = 1 by
        rw [show (1 : ℤ) - c7reg.self.generation = 0 from rfl, powDecay]
        norm_num]
      rw [show c7root.kappa = 0.1 from rfl, show c7reg.self.kappa = 0.12 from rfl]
      norm_num
    rw [ht]
    norm_num
  · rw [specEffectiveKappa, weightedMean]
    rw [show c7reg.ancestors = [c7root] from rfl]
    simp only [List.map_cons, List.map_nil, List.zip_cons_cons, List.zip_nil_right,
      List.sum_cons, List.sum_nil]
    rw [show powDecay (1 - c7root.generation) = 0.88 by
      rw [show (1 : ℤ) - c7root.generation = 1 from rfl, powDecay]
      norm_num]
    rw [show c7root.kappa = 0.1 from rfl, show c7reg.self.kappa = 0.12 from rfl]
    norm_num

/-- Claim C7 (amended): effectiveKappa(atGeneration) is the weighted mean
of kappa over the chain from self to root where every region THAT HAS A
PARENT (self included) is weighted 0.88 to the power max(0, atGeneration
minus its generation) and the parentless root is weighted 1; for a region
with no parent it equals its own kappa exactly. -/
theorem c7_effectiveKappa :
    ∀ (r : Region) (g : ℤ),
    r.effectiveKappa g = specEffectiveKappaAmended r g ∧
    (r.ancestors = [] → r.effectiveKappa g = r.self.kappa) :=
  fun r g => ⟨effectiveKappa_eq_amended r g, effectiveKappa_root r g⟩

theorem c7_witness : Region.effectiveKappa ⟨c7root, []⟩ 5 = c7root.kappa :=
  (c7_effectiveKappa ⟨c7root, []⟩ 5).2 rfl

/-! ## Claim C8 (corrected): the empty sample overwrites the cache -/

/-- The center claim C8 expects for an empty sample: the hue-band center
the cached mean defines (the map of section 4.1 applied to the LAST CACHED
meanTheta). -/
def specEmptyCenter (cached : ℝ) : ℝ :=
  jsMod (jsMod cached (2 * Real.pi) + 2 * Real.pi) (2 * Real.pi) / (2 * Real.pi)

def c8reg : Region := ⟨⟨0.5, 0, ⟨0, 0, 0⟩, 0.005, 6, []⟩, []⟩

/-- Counterexample to claim C8: a region whose cached meanTheta is 6 is
asked for the band of an empty sample; the code returns center 0 and
overwrites the cache with 0, while the center defined by the last cached
mean is 3 over pi, which is not 0. -/
theorem c8_counterexample :
    (c8reg.allowedHueBand [] 50).1.center = 0 ∧
    (c8reg.allowedHueBand [] 50).2.self.meanTheta = 0 ∧
    c8reg.self.meanTheta = 6 ∧
    specEmptyCenter c8reg.self.meanTheta = 3 / Real.pi ∧
    (3 / Real.pi : ℝ) ≠ 0 := by
  have hpi : (0 : ℝ) < 2 * Real.pi := by positivity
  have h6 : (6 : ℝ) < 2 * Real.pi := by nlinarith [Real.pi_gt_three]
  refine ⟨allowedHueBand_empty_center c8reg 50,
    by rw [allowedHueBand_meanTheta, avg_nil],
    rfl, ?_, by positivity⟩
  rw [show c8reg.self.meanTheta = 6 from rfl, specEmptyCenter]
  have hm1 : jsMod 6 (2 * Real.pi) = 6 := by
    rw [jsMod, jsTrunc, if_pos (by positivity)]
    rw [show Int.floor ((6 : ℝ) / (2 * Real.pi)) = 0 from
      Int.floor_eq_zero_iff.mpr ⟨by positivity, (div_lt_one hpi).mpr h6⟩]
    norm_num
  rw [hm1]
  have hm2 : jsMod (6 + 2 * Real.pi) (2 * Real.pi) = 6 := by
    rw [jsMod, jsTrunc, if_pos (by positivity)]
    have hx : (6 + 2 * Real.pi) / (2 * Real.pi) = 6 / (2 * Real.pi) + 1 := by
      field_simp
    have hfl : Int.floor ((6 + 2 * Real.pi) / (2 * Real.pi)) = 1 := by
      apply Int.floor_eq_iff.mpr
      constructor
      · rw [hx]
        have h0 : (0 : ℝ) ≤ 6 / (2 * Real.pi) := by positivity
        push_cast
        linarith
      · rw [hx]
        have hlt : 6 / (2 * Real.pi) < 1 := (div_lt_one hpi).mpr h6
        push_cast
        linarith
    rw [hfl]
    push_cast
    ring
  rw [hm2]
  rw [div_eq_div_iff hpi.ne.symm (by positivity : Real.pi ≠ 0)]
  ring

/-- Claim C8 (amended): allowedHueBand caches the plain arithmetic mean of
the samples as meanTheta; an empty sample yields mean 0 and hence center 0,
regardless of (and overwriting) the previously cached mean. -/
theorem c8_band_mean :
    ∀ (r : Region) (tv : List ℝ) (coh : ℝ),
    (r.allowedHueBand tv coh).2.self.meanTheta = avg tv ∧
    (tv = [] → (r.allowedHueBand tv coh).1.center = 0 ∧
      (r.allowedHueBand tv coh).2.self.meanTheta = 0) := by
  intro r tv coh
  refine ⟨allowedHueBand_meanTheta r tv coh, fun h => ?_⟩
  subst h
  exact ⟨allowedHueBand_empty_center r coh,
    by rw [allowedHueBand_meanTheta, avg_nil]⟩

theorem c8_witness : (c8reg.allowedHueBand [] 77).1.center = 0 :=
  ((c8_band_mean c8reg [] 77).2 rfl).1

/-! ## Claim C9 (corrected): the horizon pull reads a clobbered cache -/

/-- The rotation bias claim C9 states: 0.008 times the difference toward
the parent region last cached mean angle. -/
def specHorizonRotBias (ghost : Region) (rotation : ℝ) : ℝ :=
  0.008 * (ghost.self.meanTheta - rotation)

def c9ghost : RegionData := ⟨0.3, 0, ⟨0, 0, 0⟩, 0.005, 2, []⟩

def c9parent : Region := ⟨c9ghost, []⟩

def c9reg : Region := ⟨⟨0.2, 1, ⟨0, 0, 0⟩, 0.005, 0, []⟩, [c9ghost]⟩

/-- The guarded branch of the horizon pull, written out: when the guard
holds, the pair reads the meanTheta and center of the allowedHueBand([])
call on the parent. -/
theorem horizonPull_guard_eq (coh gp rot hue : ℝ) (ghost : Region) (s : RegionData)
    (h1 : coh > 75) (h2 : gp > 1.2) :
    horizonPull coh gp rot hue (some ⟨s, ghost.self :: ghost.ancestors⟩) =
      (0.008 * ((ghost.allowedHueBand [] coh).2.self.meanTheta - rot),
       0.006 * ((ghost.allowedHueBand [] coh).1.center - hue)) := by
  obtain ⟨gd, gancs⟩ := ghost
  rw [show horizonPull coh gp rot hue (some ⟨s, gd :: gancs⟩) =
      (if coh > 75 ∧ gp > 1.2 then
        (0.008 * (((⟨gd, gancs⟩ : Region).allowedHueBand [] coh).2.self.meanTheta - rot),
         0.006 * (((⟨gd, gancs⟩ : Region).allowedHueBand [] coh).1.center - hue))
      else (0, 0)) from rfl]
  rw [if_pos ⟨h1, h2⟩]

/-- Counterexample to claim C9: with the guard satisfied (coherence 80,
growthPotential 1.3) and a parent whose cached mean angle is 2, the claim
expects a rotation bias of 0.008 times (2 - 0) = 0.016; the code first
calls allowedHueBand([], coh) on the parent, which overwrites meanTheta
with 0, and then biases toward that 0: the bias is 0. -/
theorem c9_counterexample :
    (horizonPull 80 1.3 0 (1 / 4) (some c9reg)).1 = 0 ∧
    specHorizonRotBias c9parent 0 = 0.016 ∧
    ((0 : ℝ) ≠ 0.016) := by
  refine ⟨?_, ?_, by norm_num⟩
  · have h := horizonPull_guard_eq 80 1.3 0 (1 / 4) c9parent c9reg.self
      (by norm_num) (by norm_num)
    rw [allowedHueBand_meanTheta, avg_nil] at h
    have h2 : horizonPull 80 1.3 0 (1 / 4) (some c9reg) =
        (0.008 * (0 - 0), 0.006 * ((c9parent.allowedHueBand [] 80).1.center - 1 / 4)) := h
    rw [h2]
    norm_num
  · rw [specHorizonRotBias, show c9parent.self.meanTheta = 2 from rfl]
    norm_num

/-- Claim C9 (amended): when coherence exceeds 75, growthPotential exceeds
1.2 and the region has a parent, the rotation is biased by 0.008 times the
difference toward the parent meanTheta AS RECOMPUTED inside the call from
an empty sample, which is always 0 (the cached mean is overwritten), and
the hue by 0.006 times the difference toward the hue-band center derived
from that zero mean, which is also 0; both are applied directly as
orientation and hue perturbations. -/
theorem c9_horizon_pull :
    ∀ (coh gp rot hue : ℝ) (r : Region),
    coh > 75 → gp > 1.2 → r.ancestors ≠ [] →
    horizonPull coh gp rot hue (some r) =
      (0.008 * (0 - rot), 0.006 * (0 - hue)) := by
  intro coh gp rot hue r h1 h2 h3
  obtain ⟨s, ancs⟩ := r
  match ancs with
  | [] => exact absurd rfl h3
  | d :: rest =>
    have h := horizonPull_guard_eq coh gp rot hue ⟨d, rest⟩ s h1 h2
    rw [allowedHueBand_meanTheta, avg_nil, allowedHueBand_empty_center] at h
    exact h

theorem c9_witness :
    horizonPull 80 1.3 1 (1 / 2) (some c9reg) =
      (0.008 * (0 - 1), 0.006 * (0 - 1 / 2)) :=
  c9_horizon_pull 80 1.3 1 (1 / 2) c9reg (by norm_num) (by norm_num)
    (by rw [show c9reg.ancestors = [c9ghost] from rfl]; exact List.cons_ne_nil _ _)

/-! ## Claim C10 (corrected): the field vanishes at the exact center -/

def c10reg : Region := ⟨⟨0.1, 0, ⟨80, 0, 0⟩, 0.008, 0, []⟩, []⟩

/-- Counterexample to claim C10: the field of the region with center
(80,0,0) and strength 0.008, evaluated exactly at the center, is the zero
vector (vnorm of the zero offset is the zero vector under the falsy-length
guard of line 21), so its magnitude is 0, not approximately 0.008. -/
theorem c10_counterexample :
    Region.computeFieldAt c10reg ⟨80, 0, 0⟩ = ⟨0, 0, 0⟩ ∧
    vlen (Region.computeFieldAt c10reg ⟨80, 0, 0⟩) = 0 ∧
    ((0.008 : ℝ) ≠ 0) := by
  have h : Region.computeFieldAt c10reg ⟨80, 0, 0⟩ = ⟨0, 0, 0⟩ := by
    rw [Region.computeFieldAt, show c10reg.ancestors = [] from rfl, fieldOfChain, baseField]
    rw [show vsub c10reg.self.fieldCenter ⟨80, 0, 0⟩ = ⟨0, 0, 0⟩ by
      rw [show c10reg.self.fieldCenter = (⟨80, 0, 0⟩ : Vec) from rfl, vsub]
      norm_num]
    rw [vnorm_zero_vec, vscale]
    norm_num
  exact ⟨h, by rw [h, vlen_zero_vec], by norm_num⟩

/-- Claim C10 (amended): at the exact center the field is the zero vector;
at ANY off-center probe p within distance 1 of the center (d the distance
from p to the center, 0 < d, d at most 1, in any direction) the field is a
positive multiple of the unit vector from p toward the center: exactly that
unit vector scaled by 0.008 over (1 + 0.01 (d + 1e-6) squared), so its
magnitude lies between 0.0079 and 0.008 (approximately the field
strength), directed toward the center. -/
theorem c10_field_near_center :
    ∀ p : Vec,
    0 < vlen (vsub c10reg.self.fieldCenter p) →
    vlen (vsub c10reg.self.fieldCenter p) ≤ 1 →
    Region.computeFieldAt c10reg p =
      vscale (vnorm (vsub c10reg.self.fieldCenter p))
        (0.008 / (1 + 0.01 * (vlen (vsub c10reg.self.fieldCenter p) + 0.000001) *
          (vlen (vsub c10reg.self.fieldCenter p) + 0.000001))) ∧
    vlen (vnorm (vsub c10reg.self.fieldCenter p)) = 1 ∧
    vlen (Region.computeFieldAt c10reg p) =
      0.008 / (1 + 0.01 * (vlen (vsub c10reg.self.fieldCenter p) + 0.000001) *
        (vlen (vsub c10reg.self.fieldCenter p) + 0.000001)) ∧
    0.0079 ≤ 0.008 / (1 + 0.01 * (vlen (vsub c10reg.self.fieldCenter p) + 0.000001) *
      (vlen (vsub c10reg.self.fieldCenter p) + 0.000001)) ∧
    0.008 / (1 + 0.01 * (vlen (vsub c10reg.self.fieldCenter p) + 0.000001) *
      (vlen (vsub c10reg.self.fieldCenter p) + 0.000001)) ≤ 0.008 := by
  intro p h0 h1
  have hdenom : (0 : ℝ) < 1 + 0.01 * (vlen (vsub c10reg.self.fieldCenter p) + 0.000001) *
      (vlen (vsub c10reg.self.fieldCenter p) + 0.000001) := by nlinarith
  have heq : Region.computeFieldAt c10reg p =
      vscale (vnorm (vsub c10reg.self.fieldCenter p))
        (0.008 / (1 + 0.01 * (vlen (vsub c10reg.self.fieldCenter p) + 0.000001) *
          (vlen (vsub c10reg.self.fieldCenter p) + 0.000001))) := rfl
  have hunit : vlen (vnorm (vsub c10reg.self.fieldCenter p)) = 1 :=
    vlen_vnorm _ h0.ne.symm
  have hmagpos : (0 : ℝ) < 0.008 / (1 + 0.01 * (vlen (vsub c10reg.self.fieldCenter p) +
      0.000001) * (vlen (vsub c10reg.self.fieldCenter p) + 0.000001)) := by positivity
  refine ⟨heq, hunit, ?_, ?_, ?_⟩
  · rw [heq, vlen_vscale, hunit, mul_one, abs_of_pos hmagpos]
  · rw [le_div_iff₀ hdenom]
    nlinarith
  · rw [div_le_iff₀ hdenom]
    nlinarith

theorem c10_probe_dist : vlen (vsub c10reg.self.fieldCenter ⟨80 - 1 / 2, 0, 0⟩) = 1 / 2 := by
  rw [show vsub c10reg.self.fieldCenter ⟨80 - 1 / 2, 0, 0⟩ = ⟨1 / 2, 0, 0⟩ by
    rw [show c10reg.self.fieldCenter = (⟨80, 0, 0⟩ : Vec) from rfl, vsub]
    norm_num]
  exact vlen_axis (1 / 2) (by norm_num)

theorem c10_witness :
    vlen (Region.computeFieldAt c10reg ⟨80 - 1 / 2, 0, 0⟩) =
      0.008 / (1 + 0.01 * (vlen (vsub c10reg.self.fieldCenter ⟨80 - 1 / 2, 0, 0⟩) + 0.000001) *
        (vlen (vsub c10reg.self.fieldCenter ⟨80 - 1 / 2, 0, 0⟩) + 0.000001)) :=
  (c10_field_near_center ⟨80 - 1 / 2, 0, 0⟩
    (by rw [c10_probe_dist]; norm_num) (by rw [c10_probe_dist]; norm_num)).2.2.1

end

end Graphene
